import Mathlib

/-!
Verification development for the fullon_ohlcv_api read-only market-data layer.

The development shallowly embeds the candle/timeseries request handlers
(`routers/candles.py`, `routers/timeseries.py`) and the WebSocket
connection/subscription manager (`routers/websocket.py`).

Modelling conventions:
- timestamps are elements of a two-dimensional abelian group (calendar
  months, minutes); hour/day/week shifts act on the minute coordinate
  (60, 1440, 10080 minutes), month shifts act on the month coordinate,
  mirroring arrow's `shift` arithmetic;
- datetimes carry an optional timezone offset (`none` models a naive
  datetime);
- numeric OHLCV fields are `Option Rat` (`none` models SQL NULL / Python
  `None`); Python `float(x)` on a non-null value is the identity and
  raises `TypeError` on `None`, so the strict candle-row conversion is
  `Option`-valued while the coercing timeseries conversion maps `None`
  to `0`;
- the storage read interface (`TimeseriesRepository.fetch_ohlcv`) is an
  oracle parameter `storage : FetchCall -> List RowT`; each handler
  additionally returns the list of storage calls it issued;
- WebSocket connections are opaque handles (`Nat`); send outcomes are an
  oracle `sendOk : Nat -> Bool` (a fake transport): the manager's
  exception handling turns a failed send into a recorded failure, never
  a raised exception.
-/

set_option autoImplicit false

/-- Abstract instant: month coordinate plus minute coordinate. -/
structure Instant where
  months : Int
  minutes : Int
  deriving DecidableEq, Repr

/-- Shift by a number of minutes (arrow `shift(minutes=n)`). -/
def Instant.shiftMinutes (t : Instant) (n : Int) : Instant :=
  { t with minutes := t.minutes + n }

/-- Shift by a number of hours (arrow `shift(hours=n)`). -/
def Instant.shiftHours (t : Instant) (n : Int) : Instant :=
  { t with minutes := t.minutes + 60 * n }

/-- Shift by a number of days (arrow `shift(days=n)`). -/
def Instant.shiftDays (t : Instant) (n : Int) : Instant :=
  { t with minutes := t.minutes + 1440 * n }

/-- Shift by a number of weeks (arrow `shift(weeks=n)`). -/
def Instant.shiftWeeks (t : Instant) (n : Int) : Instant :=
  { t with minutes := t.minutes + 10080 * n }

/-- Shift by a number of calendar months (arrow `shift(months=n)`). -/
def Instant.shiftMonths (t : Instant) (n : Int) : Instant :=
  { t with months := t.months + n }

/-- Temporal order on instants (lexicographic: months, then minutes). -/
def Instant.le (a b : Instant) : Prop :=
  a.months < b.months ∨ (a.months = b.months ∧ a.minutes ≤ b.minutes)

instance (a b : Instant) : Decidable (Instant.le a b) := by
  unfold Instant.le; infer_instance

/-- A Python `datetime`: an instant plus optional timezone info
(`tz = none` models a naive datetime, `tzinfo is None`). -/
structure Dt where
  instant : Instant
  tz : Option Int
  deriving DecidableEq, Repr

/-- Conversion `arrow.get(datetime)` as used by the handlers: the
underlying instant passes through unchanged. -/
def arrowGet (d : Dt) : Instant := d.instant

/-- The literal `timeframe_map` dict of
`convert_timeframe_to_compression` (candles.py lines 49-70). -/
def timeframe_map : List (String × (Nat × String)) :=
  [("1m", (1, "minutes")), ("3m", (3, "minutes")), ("5m", (5, "minutes")),
   ("15m", (15, "minutes")), ("30m", (30, "minutes")),
   ("1h", (1, "hours")), ("2h", (2, "hours")), ("4h", (4, "hours")),
   ("6h", (6, "hours")), ("8h", (8, "hours")), ("12h", (12, "hours")),
   ("1d", (1, "days")), ("3d", (3, "days")),
   ("1w", (1, "weeks")),
   ("1M", (1, "months"))]

/-- Embedding of `convert_timeframe_to_compression` (candles.py lines
36-78): exact dict lookup; `none` models the raised 422 HTTPException. -/
def convert_timeframe_to_compression (timeframe : String) : Option (Nat × String) :=
  timeframe_map.lookup timeframe

/-- The supported token set as enumerated by the specification:
minute-multiples 1,3,5,15,30; hour-multiples 1,2,4,6,8,12;
day-multiples 1,3; one week; one month. -/
def supportedTimeframes : List String :=
  ["1m", "3m", "5m", "15m", "30m", "1h", "2h", "4h", "6h", "8h", "12h",
   "1d", "3d", "1w", "1M"]

/-- Embedding of the recent-window derivation inline in
`get_recent_candles` (candles.py lines 131-144): an if/elif chain on the
period string with a 24-hour fallback; returns (start_time, end_time). -/
def deriveRecentWindow (now : Instant) (compression : Nat) (period : String)
    (limit : Nat) : Instant × Instant :=
  let end_time := now
  let start_time :=
    if period = "minutes" then end_time.shiftMinutes (-((compression : Int) * limit))
    else if period = "hours" then end_time.shiftHours (-((compression : Int) * limit))
    else if period = "days" then end_time.shiftDays (-((compression : Int) * limit))
    else if period = "weeks" then end_time.shiftWeeks (-((compression : Int) * limit))
    else if period = "months" then end_time.shiftMonths (-((compression : Int) * limit))
    else end_time.shiftHours (-24)
  (start_time, end_time)

/-- One row returned by `fetch_ohlcv`:
(timestamp, open, high, low, close, volume); numeric fields are
`Option Rat`, with `none` modelling a NULL from gapfill/LOCF. -/
structure RowT where
  ts : Int
  open_price : Option Rat
  high_price : Option Rat
  low_price : Option Rat
  close_price : Option Rat
  volume : Option Rat
  deriving DecidableEq, Repr

/-- One output dict of a candle/timeseries handler:
keys timestamp/open/high/low/close/vol. -/
structure CandleOut where
  ts : Int
  open_price : Rat
  high_price : Rat
  low_price : Rat
  close_price : Rat
  vol : Rat
  deriving DecidableEq, Repr

/-- The helper `_f` of `get_ohlcv_aggregation` (timeseries.py lines
95-96): `float(x) if x is not None else 0.0`. -/
def tsCoerce (x : Option Rat) : Rat := x.getD 0

/-- Row conversion in `get_ohlcv_aggregation` (timeseries.py lines
98-112): every numeric field passes through `_f`, so NULLs become 0. -/
def tsRowConvert (r : RowT) : CandleOut :=
  { ts := r.ts
    open_price := tsCoerce r.open_price
    high_price := tsCoerce r.high_price
    low_price := tsCoerce r.low_price
    close_price := tsCoerce r.close_price
    vol := tsCoerce r.volume }

/-- Row conversion in the candle handlers (candles.py lines 153-167 and
254-266): `float(field)` applied directly, which raises `TypeError` on
`None`; the failure is modelled as `none`. -/
def candleRowConvert (r : RowT) : Option CandleOut :=
  match r.open_price, r.high_price, r.low_price, r.close_price, r.volume with
  | some o, some h, some l, some c, some v =>
      some { ts := r.ts, open_price := o, high_price := h, low_price := l,
             close_price := c, vol := v }
  | _, _, _, _, _ => none

/-- Strict conversion of a whole row list: any `None` field anywhere
makes the comprehension raise, modelled as `none`. -/
def convertRows : List RowT → Option (List CandleOut)
  | [] => some []
  | r :: rest =>
    match candleRowConvert r, convertRows rest with
    | some c, some cs => some (c :: cs)
    | _, _ => none

/-- Python slice `l[-n:]` for a natural `n` (the handlers' tail-trim;
`limit` is constrained `ge=1` by the query validation). -/
def pySliceLast {α : Type} (l : List α) (n : Nat) : List α :=
  if n = 0 then l else l.drop (l.length - n)

/-- One call to `TimeseriesRepository.fetch_ohlcv`. -/
structure FetchCall where
  compression : Nat
  period : String
  fromdate : Instant
  todate : Instant
  deriving DecidableEq, Repr

/-- Outcome of a handler: a successful envelope (data plus count), a
4xx client error (HTTPException with a detail string), or a 5xx server
error (an uncaught exception surfaced by the framework, or the
explicit 500 in timeseries.py). -/
inductive HandlerResult where
  | ok (data : List CandleOut) (count : Nat)
  | clientError (status : Nat) (detail : String)
  | serverError (status : Nat)
  deriving DecidableEq, Repr

/-- Embedding of `get_recent_candles` (candles.py lines 85-184):
validate the timeframe, derive the recent window, fetch, tail-trim to
`limit`, then strictly convert rows.  Returns the result together with
the list of storage calls issued. -/
def getRecentCandles (timeframe : String) (limit : Nat) (now : Instant)
    (storage : FetchCall → List RowT) : HandlerResult × List FetchCall :=
  match convert_timeframe_to_compression timeframe with
  | none => (.clientError 422 ("Invalid timeframe: " ++ timeframe), [])
  | some (compression, period) =>
    let w := deriveRecentWindow now compression period limit
    let call : FetchCall :=
      { compression := compression, period := period,
        fromdate := w.1, todate := w.2 }
    let ohlcv_data := storage call
    match convertRows (pySliceLast ohlcv_data limit) with
    | some candles_data => (.ok candles_data candles_data.length, [call])
    | none => (.serverError 500, [call])

/-- Embedding of `get_candles_in_range` (candles.py lines 191-286):
validate the timeframe, convert the raw query datetimes with
`arrow.get`, fetch, then strictly convert rows.  No range validation of
any kind is performed on (start_time, end_time). -/
def getCandlesInRange (timeframe : String) (start_time end_time : Dt)
    (storage : FetchCall → List RowT) : HandlerResult × List FetchCall :=
  match convert_timeframe_to_compression timeframe with
  | none => (.clientError 422 ("Invalid timeframe: " ++ timeframe), [])
  | some (compression, period) =>
    let call : FetchCall :=
      { compression := compression, period := period,
        fromdate := arrowGet start_time, todate := arrowGet end_time }
    let ohlcv_data := storage call
    match convertRows ohlcv_data with
    | some candles_data => (.ok candles_data candles_data.length, [call])
    | none => (.serverError 500, [call])

/-- Embedding of `get_ohlcv_aggregation` (timeseries.py lines 24-147):
validate the timeframe, fetch over the raw (unvalidated) range,
tail-trim to `limit` when present, then convert rows with the
NULL-to-zero coercion `_f`. -/
def getOhlcvAggregation (timeframe : String) (start_time end_time : Dt)
    (limit : Option Nat) (storage : FetchCall → List RowT) :
    HandlerResult × List FetchCall :=
  match convert_timeframe_to_compression timeframe with
  | none => (.clientError 422 ("Invalid timeframe: " ++ timeframe), [])
  | some (compression, period) =>
    let call : FetchCall :=
      { compression := compression, period := period,
        fromdate := arrowGet start_time, todate := arrowGet end_time }
    let tuples := storage call
    let tuples' :=
      match limit with
      | some n => pySliceLast tuples n
      | none => tuples
    let ohlcv_list := tuples'.map tsRowConvert
    (.ok ohlcv_list ohlcv_list.length, [call])

/-- Embedding of `ConnectionManager` (websocket.py lines 21-111): a list
of active connections plus the subscription registry, a dict from
subscription key to the list of subscribed connections.  Connections are
opaque handles; the Python dict is an association list with unique keys
and insertion order. -/
structure ConnectionManager where
  active_connections : List Nat
  subscriptions : List (String × List Nat)
  deriving DecidableEq, Repr

/-- Registry update of `ConnectionManager.subscribe` (websocket.py lines
54-65): ensure the key has an entry, then append the connection unless
already present.  A missing key is appended at the end (dict insertion
order). -/
def subsSubscribe (c : Nat) (k : String) :
    List (String × List Nat) → List (String × List Nat)
  | [] => [(k, [c])]
  | (k', l) :: rest =>
    if k' = k then (k', if c ∈ l then l else l ++ [c]) :: rest
    else (k', l) :: subsSubscribe c k rest

/-- Registry update of `ConnectionManager.unsubscribe` (websocket.py
lines 67-76): remove the connection if the key exists and holds it;
delete the key's entry when its list becomes empty; otherwise no-op. -/
def subsUnsubscribe (c : Nat) (k : String) :
    List (String × List Nat) → List (String × List Nat)
  | [] => []
  | (k', l) :: rest =>
    if k' = k then
      if c ∈ l then
        if l.erase c = [] then rest else (k', l.erase c) :: rest
      else (k', l) :: rest
    else (k', l) :: subsUnsubscribe c k rest

/-- Registry sweep of `ConnectionManager.disconnect` (websocket.py lines
42-47): remove the connection from every entry holding it, deleting
entries whose list becomes empty. -/
def subsDisconnect (c : Nat) :
    List (String × List Nat) → List (String × List Nat)
  | [] => []
  | (k, l) :: rest =>
    if c ∈ l then
      if l.erase c = [] then subsDisconnect c rest
      else (k, l.erase c) :: subsDisconnect c rest
    else (k, l) :: subsDisconnect c rest

/-- Embedding of `ConnectionManager.subscribe`. -/
def ConnectionManager.subscribe (m : ConnectionManager) (c : Nat) (k : String) :
    ConnectionManager :=
  { m with subscriptions := subsSubscribe c k m.subscriptions }

/-- Embedding of `ConnectionManager.unsubscribe`. -/
def ConnectionManager.unsubscribe (m : ConnectionManager) (c : Nat) (k : String) :
    ConnectionManager :=
  { m with subscriptions := subsUnsubscribe c k m.subscriptions }

/-- Embedding of `ConnectionManager.disconnect` (websocket.py lines
37-52): remove from the active list when present, then sweep the
subscription registry. -/
def ConnectionManager.disconnect (m : ConnectionManager) (c : Nat) :
    ConnectionManager :=
  { active_connections :=
      if c ∈ m.active_connections then m.active_connections.erase c
      else m.active_connections
    subscriptions := subsDisconnect c m.subscriptions }

/-- The reverse index for a key: `self.subscriptions[key]`, or the empty
list when the key is absent. -/
def ConnectionManager.reverseIndex (m : ConnectionManager) (k : String) : List Nat :=
  (m.subscriptions.lookup k).getD []

/-- Embedding of `ConnectionManager.broadcast_to_subscription`
(websocket.py lines 94-111): iterate the key's subscriber list in order,
attempting a send to each (sends that raise are caught and recorded as
failures), then `disconnect` every failed connection.  Returns the
attempt list (connection, send succeeded) and the resulting manager. -/
def ConnectionManager.broadcast_to_subscription (m : ConnectionManager)
    (k : String) (sendOk : Nat → Bool) :
    List (Nat × Bool) × ConnectionManager :=
  match m.subscriptions.lookup k with
  | none => ([], m)
  | some l =>
    (l.map (fun c => (c, sendOk c)),
     (l.filter (fun c => !sendOk c)).foldl ConnectionManager.disconnect m)

/-- Server-to-client frames of the WebSocket protocol (websocket.py):
in-band error frames, subscription/unsubscription confirmations and
OHLCV update pushes, each carrying the formatted current timestamp. -/
inductive Frame where
  | error (message : String) (timestamp : String)
  | subConfirmed (exchange symbol timeframe subscription_type : String)
      (timestamp : String)
  | unsubConfirmed (exchange symbol timeframe subscription_type : String)
      (timestamp : String)
  | ohlcvUpdate (exchange symbol timeframe : String) (timestamp : String)
  deriving DecidableEq, Repr

/-- A parsed client JSON message: `message.get(...)` for the relevant
fields (`none` models an absent field). -/
structure WsMessage where
  action : Option String
  exchange : Option String
  symbol : Option String
  timeframe : Option String
  message_type : Option String
  deriving DecidableEq, Repr

/-- A received text frame after `json.loads`: either a JSON decode
failure or a parsed message. -/
inductive ClientFrame where
  | invalidJson (raw : String)
  | jsonMsg (msg : WsMessage)
  deriving DecidableEq, Repr

/-- Result of handling one received frame: the manager afterwards, the
sends issued (recipient, frame, delivered), and whether the receive
loop continues. -/
structure StepResult where
  manager : ConnectionManager
  replies : List (Nat × Frame × Bool)
  continues : Bool
  deriving DecidableEq, Repr

/-- Python `str(x)` on an optional string (for the unknown-action error
message, where a missing action prints as None). -/
def pyOptStr : Option String → String
  | none => "None"
  | some s => s

/-- Embedding of `handle_subscribe` (websocket.py lines 205-263):
check the four fields are present and non-empty (Python truthiness),
build the composite subscription key, subscribe, send the confirmation,
then immediately broadcast one sample `ohlcv_update` to that key
(`send_sample_ohlcv_update`, lines 317-340). -/
def handleSubscribe (m : ConnectionManager) (conn : Nat) (msg : WsMessage)
    (now : String) (sendOk : Nat → Bool) : StepResult :=
  match msg.exchange, msg.symbol, msg.timeframe, msg.message_type with
  | some ex, some sym, some tf, some ty =>
    if ex = "" ∨ sym = "" ∨ tf = "" ∨ ty = "" then
      { manager := m
        replies := [(conn, .error
          "Missing required fields: exchange, symbol, timeframe, type" now,
          sendOk conn)]
        continues := true }
    else
      let subscription_key := ex ++ ":" ++ sym ++ ":" ++ tf ++ ":" ++ ty
      let m1 := m.subscribe conn subscription_key
      let bc := m1.broadcast_to_subscription subscription_key sendOk
      { manager := bc.2
        replies := (conn, .subConfirmed ex sym tf ty now, sendOk conn) ::
          bc.1.map (fun p => (p.1, Frame.ohlcvUpdate ex sym tf now, p.2))
        continues := true }
  | _, _, _, _ =>
    { manager := m
      replies := [(conn, .error
        "Missing required fields: exchange, symbol, timeframe, type" now,
        sendOk conn)]
      continues := true }

/-- Embedding of `handle_unsubscribe` (websocket.py lines 266-314). -/
def handleUnsubscribe (m : ConnectionManager) (conn : Nat) (msg : WsMessage)
    (now : String) (sendOk : Nat → Bool) : StepResult :=
  match msg.exchange, msg.symbol, msg.timeframe, msg.message_type with
  | some ex, some sym, some tf, some ty =>
    if ex = "" ∨ sym = "" ∨ tf = "" ∨ ty = "" then
      { manager := m
        replies := [(conn, .error
          "Missing required fields: exchange, symbol, timeframe, type" now,
          sendOk conn)]
        continues := true }
    else
      let subscription_key := ex ++ ":" ++ sym ++ ":" ++ tf ++ ":" ++ ty
      { manager := m.unsubscribe conn subscription_key
        replies := [(conn, .unsubConfirmed ex sym tf ty now, sendOk conn)]
        continues := true }
  | _, _, _, _ =>
    { manager := m
      replies := [(conn, .error
        "Missing required fields: exchange, symbol, timeframe, type" now,
        sendOk conn)]
      continues := true }

/-- Embedding of `handle_websocket_message` (websocket.py lines
186-202): dispatch on the action field; any other action yields an
in-band error frame and leaves the manager untouched. -/
def handleWebsocketMessage (m : ConnectionManager) (conn : Nat)
    (msg : WsMessage) (now : String) (sendOk : Nat → Bool) : StepResult :=
  if msg.action = some "subscribe" then handleSubscribe m conn msg now sendOk
  else if msg.action = some "unsubscribe" then
    handleUnsubscribe m conn msg now sendOk
  else
    { manager := m
      replies := [(conn, .error ("Unknown action: " ++ pyOptStr msg.action) now,
        sendOk conn)]
      continues := true }

/-- Embedding of one iteration of the receive loop of
`websocket_ohlcv_endpoint` (websocket.py lines 144-169): a JSON decode
failure is caught in the loop body and answered with an in-band error
frame, after which the loop continues. -/
def receiveStep (m : ConnectionManager) (conn : Nat) (frame : ClientFrame)
    (now : String) (sendOk : Nat → Bool) : StepResult :=
  match frame with
  | .invalidJson _ =>
    { manager := m
      replies := [(conn, .error "Invalid JSON format" now, sendOk conn)]
      continues := true }
  | .jsonMsg msg => handleWebsocketMessage m conn msg now sendOk

/-- An association-list lookup succeeds exactly when the key occurs among
the stored keys (the Python `in` test on a dict). -/
theorem lookup_isSome_iff {β : Type} (l : List (String × β)) (a : String) :
    (List.lookup a l).isSome = true ↔ a ∈ l.map Prod.fst := by
  induction l with
  | nil => simp [List.lookup]
  | cons p t ih =>
    obtain ⟨k, v⟩ := p
    by_cases h : a = k
    · subst h
      simp [List.lookup]
    · have hb : (a == k) = false := by simp [h]
      simp only [List.lookup, hb, List.map_cons, List.mem_cons]
      simp [h, ih]

/-- C3: the timeframe translation is total over exactly the supported
token set (minute-multiples 1,3,5,15,30; hour-multiples 1,2,4,6,8,12;
day-multiples 1,3; one week; one month), returns for each supported
token its fixed (compression, period) pair, and yields no default for
any string outside the set. -/
theorem timeframe_translation_total_on_supported_set :
    (∀ tf : String, (convert_timeframe_to_compression tf).isSome = true ↔
      tf ∈ supportedTimeframes) ∧
    convert_timeframe_to_compression "1m" = some (1, "minutes") ∧
    convert_timeframe_to_compression "3m" = some (3, "minutes") ∧
    convert_timeframe_to_compression "5m" = some (5, "minutes") ∧
    convert_timeframe_to_compression "15m" = some (15, "minutes") ∧
    convert_timeframe_to_compression "30m" = some (30, "minutes") ∧
    convert_timeframe_to_compression "1h" = some (1, "hours") ∧
    convert_timeframe_to_compression "2h" = some (2, "hours") ∧
    convert_timeframe_to_compression "4h" = some (4, "hours") ∧
    convert_timeframe_to_compression "6h" = some (6, "hours") ∧
    convert_timeframe_to_compression "8h" = some (8, "hours") ∧
    convert_timeframe_to_compression "12h" = some (12, "hours") ∧
    convert_timeframe_to_compression "1d" = some (1, "days") ∧
    convert_timeframe_to_compression "3d" = some (3, "days") ∧
    convert_timeframe_to_compression "1w" = some (1, "weeks") ∧
    convert_timeframe_to_compression "1M" = some (1, "months") := by
  refine ⟨fun tf => ?_, by decide⟩
  rw [convert_timeframe_to_compression, lookup_isSome_iff]
  simp [timeframe_map, supportedTimeframes]

/-- C4: for each of the five recognized period units the derived recent
window ends at `now` and starts `compression * limit` units earlier; for
any unrecognized period it is the 24-hour window ending at `now`. -/
theorem derive_recent_window_spec (now : Instant) (compression limit : Nat)
    (period : String)
    (hp : period ∉ ["minutes", "hours", "days", "weeks", "months"]) :
    deriveRecentWindow now compression "minutes" limit =
      (now.shiftMinutes (-((compression : Int) * limit)), now) ∧
    deriveRecentWindow now compression "hours" limit =
      (now.shiftHours (-((compression : Int) * limit)), now) ∧
    deriveRecentWindow now compression "days" limit =
      (now.shiftDays (-((compression : Int) * limit)), now) ∧
    deriveRecentWindow now compression "weeks" limit =
      (now.shiftWeeks (-((compression : Int) * limit)), now) ∧
    deriveRecentWindow now compression "months" limit =
      (now.shiftMonths (-((compression : Int) * limit)), now) ∧
    deriveRecentWindow now compression period limit =
      (now.shiftHours (-24), now) := by
  simp only [List.mem_cons, List.not_mem_nil, or_false] at hp
  push_neg at hp
  obtain ⟨h1, h2, h3, h4, h5⟩ := hp
  refine ⟨?_, ?_, ?_, ?_, ?_, ?_⟩
  · simp [deriveRecentWindow]
  · simp [deriveRecentWindow]
  · simp [deriveRecentWindow]
  · simp [deriveRecentWindow]
  · simp [deriveRecentWindow]
  · simp [deriveRecentWindow, h1, h2, h3, h4, h5]

/-- Witness for C4 at a concrete unrecognized period. -/
theorem derive_recent_window_spec_witness :
    "seconds" ∉ ["minutes", "hours", "days", "weeks", "months"] ∧
    deriveRecentWindow ⟨0, 0⟩ 2 "seconds" 3 =
      (Instant.shiftHours ⟨0, 0⟩ (-24), ⟨0, 0⟩) :=
  ⟨by decide, (derive_recent_window_spec ⟨0, 0⟩ 2 3 "seconds" (by decide)).2.2.2.2.2⟩

/-- A storage oracle returning no rows. -/
def storageEmpty : FetchCall → List RowT := fun _ => []

/-- A row whose close field is NULL (all other fields present). -/
def rowNullClose : RowT :=
  { ts := 0, open_price := some 1, high_price := some 2,
    low_price := some 1, close_price := none, volume := some 3 }

/-- A storage oracle returning exactly one row with a NULL close. -/
def storageNullClose : FetchCall → List RowT := fun _ => [rowNullClose]

/-- Counterexample to C1: with timeframe "1h", a start strictly after
the end (both timezone-aware), the range handler does not return a
client error and issues one storage fetch, not zero. -/
theorem range_handler_calls_storage_on_inverted_range :
    Instant.le (arrowGet ⟨⟨0, 0⟩, some 0⟩) (arrowGet ⟨⟨0, 100⟩, some 0⟩) ∧
    (getCandlesInRange "1h" ⟨⟨0, 100⟩, some 0⟩ ⟨⟨0, 0⟩, some 0⟩
      storageEmpty).2.length = 1 ∧
    (getCandlesInRange "1h" ⟨⟨0, 100⟩, some 0⟩ ⟨⟨0, 0⟩, some 0⟩
      storageEmpty).1 = .ok [] 0 := by
  decide

/-- C1 amended: the range handlers perform no range normalization at
all.  For every request with a supported timeframe — regardless of the
ordering of start/end or of their timezone-awareness — both range
handlers issue exactly one storage fetch over the raw range and never
return a client error. -/
theorem range_handlers_skip_range_validation (tf : String) (c : Nat)
    (p : String) (start_time end_time : Dt) (lim : Option Nat)
    (storage : FetchCall → List RowT)
    (h : convert_timeframe_to_compression tf = some (c, p)) :
    (getCandlesInRange tf start_time end_time storage).2 =
      [⟨c, p, arrowGet start_time, arrowGet end_time⟩] ∧
    (∀ s d, (getCandlesInRange tf start_time end_time storage).1 ≠
      .clientError s d) ∧
    (getOhlcvAggregation tf start_time end_time lim storage).2 =
      [⟨c, p, arrowGet start_time, arrowGet end_time⟩] ∧
    (∀ s d, (getOhlcvAggregation tf start_time end_time lim storage).1 ≠
      .clientError s d) := by
  unfold getCandlesInRange getOhlcvAggregation
  rw [h]
  cases hcv : convertRows (storage ⟨c, p, arrowGet start_time, arrowGet end_time⟩) <;>
    simp [hcv]

/-- Witness for the amended C1 at a concrete request with naive
datetimes and start equal to end. -/
theorem range_handlers_skip_range_validation_witness :
    convert_timeframe_to_compression "1h" = some (1, "hours") ∧
    ((getCandlesInRange "1h" ⟨⟨0, 5⟩, none⟩ ⟨⟨0, 5⟩, none⟩ storageEmpty).2 =
      [⟨1, "hours", ⟨0, 5⟩, ⟨0, 5⟩⟩] ∧
     (∀ s d, (getCandlesInRange "1h" ⟨⟨0, 5⟩, none⟩ ⟨⟨0, 5⟩, none⟩
        storageEmpty).1 ≠ .clientError s d) ∧
     (getOhlcvAggregation "1h" ⟨⟨0, 5⟩, none⟩ ⟨⟨0, 5⟩, none⟩ none
        storageEmpty).2 = [⟨1, "hours", ⟨0, 5⟩, ⟨0, 5⟩⟩] ∧
     (∀ s d, (getOhlcvAggregation "1h" ⟨⟨0, 5⟩, none⟩ ⟨⟨0, 5⟩, none⟩ none
        storageEmpty).1 ≠ .clientError s d)) :=
  ⟨by decide,
   range_handlers_skip_range_validation "1h" 1 "hours" ⟨⟨0, 5⟩, none⟩
     ⟨⟨0, 5⟩, none⟩ none storageEmpty (by decide)⟩

/-- Counterexample to C2: `get_recent_candles` applied to a storage
result containing a row with `close=None` surfaces a 500 server error
(the uncaught `float(None)` TypeError); its output is not a row with
close coerced to 0.0. -/
theorem recent_candles_null_close_raises :
    (getRecentCandles "1m" 10 ⟨0, 0⟩ storageNullClose).1 = .serverError 500 ∧
    (getRecentCandles "1m" 10 ⟨0, 0⟩ storageNullClose).1 ≠
      .ok [tsRowConvert rowNullClose] 1 := by
  decide

/-- C2 amended: the NULL-to-zero coercion happens only in the
timeseries aggregation handler, whose every output row is the coerced
image of a fetched row and where a NULL close becomes 0; in the candle
handlers the strict row conversion fails on any row with a NULL close,
so the request surfaces an error instead of a zero-coerced row. -/
theorem null_field_handling (tf : String) (c : Nat) (p : String)
    (start_time end_time : Dt) (lim : Option Nat)
    (storage : FetchCall → List RowT) (r : RowT)
    (h : convert_timeframe_to_compression tf = some (c, p))
    (hnull : r.close_price = none) :
    (∀ x : RowT, tsRowConvert x =
      { ts := x.ts, open_price := x.open_price.getD 0,
        high_price := x.high_price.getD 0, low_price := x.low_price.getD 0,
        close_price := x.close_price.getD 0, vol := x.volume.getD 0 }) ∧
    (∃ rows : List RowT,
      (getOhlcvAggregation tf start_time end_time lim storage).1 =
        .ok (rows.map tsRowConvert) (rows.map tsRowConvert).length) ∧
    (tsRowConvert r).close_price = 0 ∧
    candleRowConvert r = none := by
  refine ⟨fun x => rfl, ?_, ?_, ?_⟩
  · cases lim with
    | none =>
      exact ⟨storage ⟨c, p, arrowGet start_time, arrowGet end_time⟩,
        by simp [getOhlcvAggregation, h]⟩
    | some n =>
      exact ⟨pySliceLast (storage ⟨c, p, arrowGet start_time, arrowGet end_time⟩) n,
        by simp [getOhlcvAggregation, h]⟩
  · simp [tsRowConvert, tsCoerce, hnull]
  · unfold candleRowConvert
    rw [hnull]
    rcases r.open_price <;> rcases r.high_price <;> rcases r.low_price <;>
      rcases r.volume <;> rfl

/-- Witness for the amended C2 at a concrete request and the concrete
NULL-close row. -/
theorem null_field_handling_witness :
    (convert_timeframe_to_compression "1m" = some (1, "minutes") ∧
     rowNullClose.close_price = none) ∧
    ((∀ x : RowT, tsRowConvert x =
      { ts := x.ts, open_price := x.open_price.getD 0,
        high_price := x.high_price.getD 0, low_price := x.low_price.getD 0,
        close_price := x.close_price.getD 0, vol := x.volume.getD 0 }) ∧
    (∃ rows : List RowT,
      (getOhlcvAggregation "1m" ⟨⟨0, 0⟩, some 0⟩ ⟨⟨0, 9⟩, some 0⟩ (some 5)
        storageNullClose).1 =
        .ok (rows.map tsRowConvert) (rows.map tsRowConvert).length) ∧
    (tsRowConvert rowNullClose).close_price = 0 ∧
    candleRowConvert rowNullClose = none) :=
  ⟨⟨by decide, by decide⟩,
   null_field_handling "1m" 1 "minutes" ⟨⟨0, 0⟩, some 0⟩ ⟨⟨0, 9⟩, some 0⟩
     (some 5) storageNullClose rowNullClose (by decide) (by decide)⟩

/-- A successful strict conversion preserves the number of rows. -/
theorem convertRows_length (l : List RowT) (cs : List CandleOut)
    (h : convertRows l = some cs) : cs.length = l.length := by
  induction l generalizing cs with
  | nil =>
    simp [convertRows] at h
    simp [← h]
  | cons r rest ih =>
    unfold convertRows at h
    cases hr : candleRowConvert r with
    | none => rw [hr] at h; exact absurd h (by simp)
    | some c0 =>
      rw [hr] at h
      cases hrest : convertRows rest with
      | none => rw [hrest] at h; exact absurd h (by simp)
      | some cs0 =>
        rw [hrest] at h
        simp at h
        subst h
        simp [ih cs0 hrest]

/-- The tail slice keeps everything when no more than `n` rows came back. -/
theorem pySliceLast_of_le {α : Type} (l : List α) (n : Nat)
    (h : l.length ≤ n) : pySliceLast l n = l := by
  unfold pySliceLast
  have : l.length - n = 0 := Nat.sub_eq_zero_of_le h
  split <;> simp [this]

/-- The tail slice drops all but the last `n` rows when more came back. -/
theorem pySliceLast_of_lt {α : Type} (l : List α) (n : Nat) (h0 : 1 ≤ n)
    (h : n < l.length) :
    pySliceLast l n = l.drop (l.length - n) ∧
    (pySliceLast l n).length = n ∧ pySliceLast l n <:+ l := by
  have hne : n ≠ 0 := by omega
  have hdrop : pySliceLast l n = l.drop (l.length - n) := by
    simp [pySliceLast, hne]
  refine ⟨hdrop, ?_, ?_⟩
  · rw [hdrop, List.length_drop]
    omega
  · rw [hdrop]
    exact List.drop_suffix _ _

/-- C8: when a limit accompanies a candle/timeseries request, the
handler output retains exactly the last `limit` fetched rows in
chronological order (a suffix of the fetched sequence of length
`limit`), and retains all rows unchanged when no more than `limit` came
back; the timeseries handler emits exactly the coerced images of the
trimmed rows and the recent-candles handler emits exactly the strict
conversion of the trimmed rows. -/
theorem limit_tail_trim (tf : String) (c : Nat) (p : String) (s e : Dt)
    (lim : Nat) (now : Instant) (storage : FetchCall → List RowT)
    (cs : List CandleOut)
    (h : convert_timeframe_to_compression tf = some (c, p))
    (hl : 1 ≤ lim)
    (hc : convertRows (pySliceLast (storage
      ⟨c, p, (deriveRecentWindow now c p lim).1,
        (deriveRecentWindow now c p lim).2⟩) lim) = some cs) :
    ((storage ⟨c, p, arrowGet s, arrowGet e⟩).length ≤ lim →
      pySliceLast (storage ⟨c, p, arrowGet s, arrowGet e⟩) lim =
        storage ⟨c, p, arrowGet s, arrowGet e⟩) ∧
    (lim < (storage ⟨c, p, arrowGet s, arrowGet e⟩).length →
      pySliceLast (storage ⟨c, p, arrowGet s, arrowGet e⟩) lim =
        (storage ⟨c, p, arrowGet s, arrowGet e⟩).drop
          ((storage ⟨c, p, arrowGet s, arrowGet e⟩).length - lim) ∧
      (pySliceLast (storage ⟨c, p, arrowGet s, arrowGet e⟩) lim).length = lim ∧
      pySliceLast (storage ⟨c, p, arrowGet s, arrowGet e⟩) lim <:+
        storage ⟨c, p, arrowGet s, arrowGet e⟩) ∧
    (getOhlcvAggregation tf s e (some lim) storage).1 =
      .ok ((pySliceLast (storage ⟨c, p, arrowGet s, arrowGet e⟩) lim).map
            tsRowConvert)
        ((pySliceLast (storage ⟨c, p, arrowGet s, arrowGet e⟩) lim).map
            tsRowConvert).length ∧
    (getRecentCandles tf lim now storage).1 = .ok cs cs.length ∧
    cs.length = (pySliceLast (storage
      ⟨c, p, (deriveRecentWindow now c p lim).1,
        (deriveRecentWindow now c p lim).2⟩) lim).length := by
  refine ⟨fun hle => pySliceLast_of_le _ _ hle,
    fun hlt => pySliceLast_of_lt _ _ hl hlt, ?_, ?_, ?_⟩
  · simp [getOhlcvAggregation, h]
  · simp [getRecentCandles, h, hc]
  · exact convertRows_length _ _ hc

/-- Witness for C8 at a concrete request with an empty storage result. -/
theorem limit_tail_trim_witness :
    (convert_timeframe_to_compression "1m" = some (1, "minutes") ∧ 1 ≤ 1 ∧
     convertRows (pySliceLast (storageEmpty
       ⟨1, "minutes", (deriveRecentWindow ⟨0, 0⟩ 1 "minutes" 1).1,
         (deriveRecentWindow ⟨0, 0⟩ 1 "minutes" 1).2⟩) 1) = some []) ∧
    ((getOhlcvAggregation "1m" ⟨⟨0, 0⟩, some 0⟩ ⟨⟨0, 9⟩, some 0⟩ (some 1)
        storageEmpty).1 =
      .ok ((pySliceLast (storageEmpty
            ⟨1, "minutes", arrowGet ⟨⟨0, 0⟩, some 0⟩,
              arrowGet ⟨⟨0, 9⟩, some 0⟩⟩) 1).map tsRowConvert)
        ((pySliceLast (storageEmpty
            ⟨1, "minutes", arrowGet ⟨⟨0, 0⟩, some 0⟩,
              arrowGet ⟨⟨0, 9⟩, some 0⟩⟩) 1).map tsRowConvert).length ∧
     (getRecentCandles "1m" 1 ⟨0, 0⟩ storageEmpty).1 =
       .ok ([] : List CandleOut) ([] : List CandleOut).length) :=
  ⟨⟨by decide, by decide, by decide⟩,
   ⟨(limit_tail_trim "1m" 1 "minutes" ⟨⟨0, 0⟩, some 0⟩ ⟨⟨0, 9⟩, some 0⟩ 1
       ⟨0, 0⟩ storageEmpty [] (by decide) (by decide) (by decide)).2.2.1,
    (limit_tail_trim "1m" 1 "minutes" ⟨⟨0, 0⟩, some 0⟩ ⟨⟨0, 9⟩, some 0⟩ 1
       ⟨0, 0⟩ storageEmpty [] (by decide) (by decide) (by decide)).2.2.2.1⟩⟩

/-- Subscribing a second time with the same connection and key does not
change the registry. -/
theorem subsSubscribe_idem (c : Nat) (k : String)
    (s : List (String × List Nat)) :
    subsSubscribe c k (subsSubscribe c k s) = subsSubscribe c k s := by
  induction s with
  | nil => simp [subsSubscribe]
  | cons p t ih =>
    obtain ⟨k', l⟩ := p
    by_cases hk : k' = k
    · subst hk
      by_cases hc : c ∈ l
      · simp [subsSubscribe, hc]
      · simp [subsSubscribe, hc]
    · simp [subsSubscribe, hk, ih]

/-- After subscribing, the key's reverse index holds the connection
exactly once, provided it held it at most once before. -/
theorem count_subsSubscribe (c : Nat) (k : String)
    (s : List (String × List Nat))
    (h : ((List.lookup k s).getD []).count c ≤ 1) :
    ((List.lookup k (subsSubscribe c k s)).getD []).count c = 1 := by
  induction s with
  | nil => simp [subsSubscribe, List.lookup]
  | cons p t ih =>
    obtain ⟨k', l⟩ := p
    by_cases hk : k' = k
    · subst hk
      simp only [List.lookup, beq_self_eq_true, Option.getD_some] at h
      by_cases hc : c ∈ l
      · have hpos : 0 < l.count c := List.count_pos_iff.mpr hc
        simp [subsSubscribe, hc, List.lookup]
        omega
      · have hz : l.count c = 0 := List.count_eq_zero.mpr hc
        simp [subsSubscribe, hc, List.lookup, List.count_append, hz]
    · have hb : (k == k') = false := by simp [Ne.symm hk]
      simp only [List.lookup, hb] at h
      simp only [subsSubscribe, if_neg hk, List.lookup, hb]
      exact ih h

/-- Unsubscribing from a key the connection does not hold leaves the
registry unchanged. -/
theorem subsUnsubscribe_noop (c : Nat) (k : String)
    (s : List (String × List Nat))
    (h : c ∉ (List.lookup k s).getD []) :
    subsUnsubscribe c k s = s := by
  induction s with
  | nil => rfl
  | cons p t ih =>
    obtain ⟨k', l⟩ := p
    by_cases hk : k' = k
    · subst hk
      simp only [List.lookup, beq_self_eq_true, Option.getD_some] at h
      simp [subsUnsubscribe, h]
    · have hb : (k == k') = false := by simp [Ne.symm hk]
      simp only [List.lookup, hb] at h
      simp [subsUnsubscribe, hk, ih h]

/-- C5: subscribing the same connection to the same key twice is a
no-op on the second call and leaves the reverse index containing the
connection exactly once; unsubscribing from a key the connection does
not hold leaves the manager unchanged. -/
theorem subscribe_idempotent_unsubscribe_noop (m : ConnectionManager)
    (c : Nat) (k : String) (h : ((m.reverseIndex k).count c) ≤ 1) :
    ((m.subscribe c k).subscribe c k) = m.subscribe c k ∧
    (((m.subscribe c k).reverseIndex k).count c) = 1 ∧
    (∀ c' k', c' ∉ m.reverseIndex k' → m.unsubscribe c' k' = m) := by
  refine ⟨?_, ?_, ?_⟩
  · simp [ConnectionManager.subscribe, subsSubscribe_idem]
  · exact count_subsSubscribe c k m.subscriptions h
  · intro c' k' h'
    simp [ConnectionManager.unsubscribe,
      subsUnsubscribe_noop c' k' m.subscriptions h']

/-- Witness for C5 on a concrete one-subscription manager. -/
theorem subscribe_idempotent_unsubscribe_noop_witness :
    ((ConnectionManager.mk [7] [("a:b:1m:ohlcv_live", [7])]).reverseIndex
        "a:b:1m:ohlcv_live").count 7 ≤ 1 ∧
    (((ConnectionManager.mk [7] [("a:b:1m:ohlcv_live", [7])]).subscribe 7
        "a:b:1m:ohlcv_live").reverseIndex "a:b:1m:ohlcv_live").count 7 = 1 :=
  ⟨by decide,
   (subscribe_idempotent_unsubscribe_noop
     (ConnectionManager.mk [7] [("a:b:1m:ohlcv_live", [7])]) 7
     "a:b:1m:ohlcv_live" (by decide)).2.1⟩

/-- After the registry sweep for a connection, no entry holds it,
provided no entry held it more than once. -/
theorem subsDisconnect_not_mem (c : Nat) (s : List (String × List Nat))
    (h : ∀ p ∈ s, (p.2).count c ≤ 1) :
    ∀ p ∈ subsDisconnect c s, c ∉ p.2 := by
  induction s with
  | nil => simp [subsDisconnect]
  | cons q t ih =>
    obtain ⟨k, l⟩ := q
    have hl : l.count c ≤ 1 := h (k, l) (by simp)
    have ht : ∀ p ∈ t, (p.2).count c ≤ 1 := fun p hp => h p (by simp [hp])
    intro p hp
    by_cases hc : c ∈ l
    · have hz : (l.erase c).count c = 0 := by
        rw [List.count_erase_self]
        have := List.count_pos_iff.mpr hc
        omega
      have hcne : c ∉ l.erase c := List.count_eq_zero.mp hz
      by_cases he : l.erase c = []
      · rw [subsDisconnect, if_pos hc, if_pos he] at hp
        exact ih ht p hp
      · rw [subsDisconnect, if_pos hc, if_neg he] at hp
        rcases List.mem_cons.mp hp with h1 | h1
        · subst h1; exact hcne
        · exact ih ht p h1
    · rw [subsDisconnect, if_neg hc] at hp
      rcases List.mem_cons.mp hp with h1 | h1
      · subst h1; exact hc
      · exact ih ht p h1

/-- The registry sweep leaves no empty entry behind, provided none was
empty before. -/
theorem subsDisconnect_nonempty (c : Nat) (s : List (String × List Nat))
    (h : ∀ p ∈ s, p.2 ≠ []) :
    ∀ p ∈ subsDisconnect c s, p.2 ≠ [] := by
  induction s with
  | nil => simp [subsDisconnect]
  | cons q t ih =>
    obtain ⟨k, l⟩ := q
    have ht : ∀ p ∈ t, p.2 ≠ [] := fun p hp => h p (by simp [hp])
    intro p hp
    by_cases hc : c ∈ l
    · by_cases he : l.erase c = []
      · rw [subsDisconnect, if_pos hc, if_pos he] at hp
        exact ih ht p hp
      · rw [subsDisconnect, if_pos hc, if_neg he] at hp
        rcases List.mem_cons.mp hp with h1 | h1
        · subst h1; exact he
        · exact ih ht p h1
    · rw [subsDisconnect, if_neg hc] at hp
      rcases List.mem_cons.mp hp with h1 | h1
      · subst h1; exact h (k, l) (by simp)
      · exact ih ht p h1

/-- Sweeping a registry no entry of which holds the connection is a
no-op. -/
theorem subsDisconnect_noop (c : Nat) (s : List (String × List Nat))
    (h : ∀ p ∈ s, c ∉ p.2) :
    subsDisconnect c s = s := by
  induction s with
  | nil => rfl
  | cons q t ih =>
    obtain ⟨k, l⟩ := q
    have hc : c ∉ l := h (k, l) (by simp)
    have ht : ∀ p ∈ t, c ∉ p.2 := fun p hp => h p (by simp [hp])
    rw [subsDisconnect, if_neg hc, ih ht]

/-- Removing a connection held at most once from the active list leaves
a list not containing it. -/
theorem active_erase_not_mem (c : Nat) (a : List Nat) (h : a.count c ≤ 1) :
    c ∉ (if c ∈ a then a.erase c else a) := by
  by_cases hc : c ∈ a
  · rw [if_pos hc]
    have hz : (a.erase c).count c = 0 := by
      rw [List.count_erase_self]
      have := List.count_pos_iff.mpr hc
      omega
    exact List.count_eq_zero.mp hz
  · rw [if_neg hc]; exact hc

/-- C6: after `disconnect(conn)` no reverse index contains the
connection; every key whose reverse index became empty is pruned (no
entry of the resulting registry is empty when none was before); and a
second `disconnect` of the same connection changes nothing. -/
theorem disconnect_cleanup_complete (m : ConnectionManager) (c : Nat)
    (hact : m.active_connections.count c ≤ 1)
    (hsub : ∀ p ∈ m.subscriptions, (p.2).count c ≤ 1) :
    (∀ p ∈ (m.disconnect c).subscriptions, c ∉ p.2) ∧
    ((∀ p ∈ m.subscriptions, p.2 ≠ []) →
      ∀ p ∈ (m.disconnect c).subscriptions, p.2 ≠ []) ∧
    (m.disconnect c).disconnect c = m.disconnect c := by
  have hgone : ∀ p ∈ (m.disconnect c).subscriptions, c ∉ p.2 :=
    subsDisconnect_not_mem c m.subscriptions hsub
  have hagone : c ∉ (m.disconnect c).active_connections :=
    active_erase_not_mem c m.active_connections hact
  refine ⟨hgone, fun hne => subsDisconnect_nonempty c m.subscriptions hne, ?_⟩
  show ConnectionManager.disconnect _ _ = _
  rw [ConnectionManager.disconnect]
  rw [if_neg hagone, subsDisconnect_noop c _ hgone]

/-- Witness for C6 on a concrete two-subscription manager. -/
theorem disconnect_cleanup_complete_witness :
    ((ConnectionManager.mk [3, 4]
        [("a:b:1m:ohlcv_live", [3]), ("a:c:1m:ohlcv_live", [3, 4])]).disconnect
        3).disconnect 3 =
      (ConnectionManager.mk [3, 4]
        [("a:b:1m:ohlcv_live", [3]), ("a:c:1m:ohlcv_live", [3, 4])]).disconnect
        3 :=
  (disconnect_cleanup_complete
    (ConnectionManager.mk [3, 4]
      [("a:b:1m:ohlcv_live", [3]), ("a:c:1m:ohlcv_live", [3, 4])]) 3
    (by decide) (by decide)).2.2

/-- Every entry of a swept registry is an entry of the original one,
with the same key and with its list either untouched or erased once. -/
theorem subsDisconnect_entry_shape (d : Nat) (s : List (String × List Nat)) :
    ∀ p ∈ subsDisconnect d s, ∃ l, (p.1, l) ∈ s ∧
      (p.2 = l ∨ p.2 = l.erase d) := by
  induction s with
  | nil => simp [subsDisconnect]
  | cons q t ih =>
    obtain ⟨k, l⟩ := q
    intro p hp
    by_cases hc : d ∈ l
    · by_cases he : l.erase d = []
      · rw [subsDisconnect, if_pos hc, if_pos he] at hp
        obtain ⟨l', h1, h2⟩ := ih p hp
        exact ⟨l', by simp [h1], h2⟩
      · rw [subsDisconnect, if_pos hc, if_neg he] at hp
        rcases List.mem_cons.mp hp with h1 | h1
        · subst h1; exact ⟨l, by simp, Or.inr rfl⟩
        · obtain ⟨l', h2, h3⟩ := ih p h1
          exact ⟨l', by simp [h2], h3⟩
    · rw [subsDisconnect, if_neg hc] at hp
      rcases List.mem_cons.mp hp with h1 | h1
      · subst h1; exact ⟨l, by simp, Or.inl rfl⟩
      · obtain ⟨l', h2, h3⟩ := ih p h1
        exact ⟨l', by simp [h2], h3⟩

/-- Disconnecting any connection preserves the total absence of another
connection from the manager. -/
theorem disconnect_preserves_absent (m : ConnectionManager) (c d : Nat)
    (h1 : c ∉ m.active_connections)
    (h2 : ∀ p ∈ m.subscriptions, c ∉ p.2) :
    c ∉ (m.disconnect d).active_connections ∧
    ∀ p ∈ (m.disconnect d).subscriptions, c ∉ p.2 := by
  constructor
  · show c ∉ (if d ∈ m.active_connections then
      m.active_connections.erase d else m.active_connections)
    split
    · intro hmem
      exact h1 (List.mem_of_mem_erase hmem)
    · exact h1
  · intro p hp
    obtain ⟨l, hl, hor⟩ := subsDisconnect_entry_shape d m.subscriptions p hp
    have hcl : c ∉ l := h2 (p.1, l) hl
    rcases hor with h | h
    · rw [h]; exact hcl
    · rw [h]; intro hmem; exact hcl (List.mem_of_mem_erase hmem)

/-- Disconnecting preserves the at-most-once occupancy invariants. -/
theorem disconnect_preserves_inv (m : ConnectionManager) (d : Nat)
    (hact : ∀ x, m.active_connections.count x ≤ 1)
    (hsub : ∀ p ∈ m.subscriptions, ∀ x, (p.2).count x ≤ 1) :
    (∀ x, (m.disconnect d).active_connections.count x ≤ 1) ∧
    (∀ p ∈ (m.disconnect d).subscriptions, ∀ x, (p.2).count x ≤ 1) := by
  constructor
  · intro x
    show (if d ∈ m.active_connections then
      m.active_connections.erase d else m.active_connections).count x ≤ 1
    split
    · exact le_trans (List.Sublist.count_le (List.erase_sublist _ _) x) (hact x)
    · exact hact x
  · intro p hp x
    obtain ⟨l, hl, hor⟩ := subsDisconnect_entry_shape d m.subscriptions p hp
    have hcl : l.count x ≤ 1 := hsub (p.1, l) hl x
    rcases hor with h | h
    · rw [h]; exact hcl
    · rw [h]
      exact le_trans (List.Sublist.count_le (List.erase_sublist _ _) x) hcl

/-- Disconnecting a list of connections preserves the total absence of
another connection. -/
theorem foldl_disconnect_preserves_absent (cs : List Nat) (c : Nat)
    (m : ConnectionManager) (h1 : c ∉ m.active_connections)
    (h2 : ∀ p ∈ m.subscriptions, c ∉ p.2) :
    c ∉ (cs.foldl ConnectionManager.disconnect m).active_connections ∧
    ∀ p ∈ (cs.foldl ConnectionManager.disconnect m).subscriptions, c ∉ p.2 := by
  induction cs generalizing m with
  | nil => exact ⟨h1, h2⟩
  | cons d t ih =>
    have := disconnect_preserves_absent m c d h1 h2
    exact ih (m.disconnect d) this.1 this.2

/-- After disconnecting every connection in a list, each of them is
absent from the manager, under the occupancy invariants. -/
theorem foldl_disconnect_removes (cs : List Nat) (c : Nat)
    (m : ConnectionManager) (hc : c ∈ cs)
    (hact : ∀ x, m.active_connections.count x ≤ 1)
    (hsub : ∀ p ∈ m.subscriptions, ∀ x, (p.2).count x ≤ 1) :
    c ∉ (cs.foldl ConnectionManager.disconnect m).active_connections ∧
    ∀ p ∈ (cs.foldl ConnectionManager.disconnect m).subscriptions, c ∉ p.2 := by
  induction cs generalizing m with
  | nil => cases hc
  | cons d t ih =>
    rw [List.foldl_cons]
    by_cases hcd : c = d
    · subst hcd
      have ha : c ∉ (m.disconnect c).active_connections :=
        active_erase_not_mem c m.active_connections (hact c)
      have hs : ∀ p ∈ (m.disconnect c).subscriptions, c ∉ p.2 :=
        subsDisconnect_not_mem c m.subscriptions (fun p hp => hsub p hp c)
      exact foldl_disconnect_preserves_absent t c (m.disconnect c) ha hs
    · have hct : c ∈ t := by
        rcases List.mem_cons.mp hc with h | h
        · exact absurd h hcd
        · exact h
      have hinv := disconnect_preserves_inv m d hact hsub
      exact ih (m.disconnect d) hct hinv.1 hinv.2

/-- C7: a broadcast attempts delivery to every connection subscribed to
the key, in registry order, regardless of individual send failures, and
afterwards every connection whose send failed has been disconnected
(absent from the active list and from every reverse index); the
operation is total, never raising. -/
theorem broadcast_failure_isolation (m : ConnectionManager) (k : String)
    (sendOk : Nat → Bool)
    (hnact : m.active_connections.Nodup)
    (hnsub : ∀ p ∈ m.subscriptions, (p.2).Nodup) :
    (m.broadcast_to_subscription k sendOk).1 =
      (m.reverseIndex k).map (fun c => (c, sendOk c)) ∧
    ∀ c ∈ m.reverseIndex k, sendOk c = false →
      c ∉ (m.broadcast_to_subscription k sendOk).2.active_connections ∧
      ∀ p ∈ (m.broadcast_to_subscription k sendOk).2.subscriptions,
        c ∉ p.2 := by
  have hact : ∀ x, m.active_connections.count x ≤ 1 :=
    List.nodup_iff_count_le_one.mp hnact
  have hsub : ∀ p ∈ m.subscriptions, ∀ x, (p.2).count x ≤ 1 :=
    fun p hp => List.nodup_iff_count_le_one.mp (hnsub p hp)
  cases hlk : List.lookup k m.subscriptions with
  | none =>
    constructor
    · simp [ConnectionManager.broadcast_to_subscription, hlk,
        ConnectionManager.reverseIndex]
    · intro c hc hfail
      rw [ConnectionManager.reverseIndex, hlk] at hc
      exact absurd hc (by simp)
  | some l =>
    have hidx : m.reverseIndex k = l := by
      rw [ConnectionManager.reverseIndex, hlk]; rfl
    constructor
    · simp [ConnectionManager.broadcast_to_subscription, hlk, hidx]
    · intro c hc hfail
      rw [hidx] at hc
      have hcf : c ∈ l.filter (fun x => !sendOk x) :=
        List.mem_filter.mpr ⟨hc, by simp [hfail]⟩
      have hrm := foldl_disconnect_removes (l.filter (fun x => !sendOk x)) c m
        hcf hact hsub
      constructor
      · simpa [ConnectionManager.broadcast_to_subscription, hlk] using hrm.1
      · intro p hp
        refine hrm.2 p ?_
        simpa [ConnectionManager.broadcast_to_subscription, hlk] using hp

/-- Witness for C7 on a concrete two-subscriber manager whose transport
fails for connection 1 only. -/
theorem broadcast_failure_isolation_witness :
    ((ConnectionManager.mk [1, 2]
        [("a:b:1m:ohlcv_live", [1, 2])]).broadcast_to_subscription
        "a:b:1m:ohlcv_live" (fun c => c == 2)).1 =
      ((ConnectionManager.mk [1, 2]
        [("a:b:1m:ohlcv_live", [1, 2])]).reverseIndex
        "a:b:1m:ohlcv_live").map (fun c => (c, c == 2)) ∧
    (1 ∉ ((ConnectionManager.mk [1, 2]
        [("a:b:1m:ohlcv_live", [1, 2])]).broadcast_to_subscription
        "a:b:1m:ohlcv_live" (fun c => c == 2)).2.active_connections ∧
     ∀ p ∈ ((ConnectionManager.mk [1, 2]
        [("a:b:1m:ohlcv_live", [1, 2])]).broadcast_to_subscription
        "a:b:1m:ohlcv_live" (fun c => c == 2)).2.subscriptions, 1 ∉ p.2) :=
  ⟨(broadcast_failure_isolation
      (ConnectionManager.mk [1, 2] [("a:b:1m:ohlcv_live", [1, 2])])
      "a:b:1m:ohlcv_live" (fun c => c == 2) (by decide) (by decide)).1,
   (broadcast_failure_isolation
      (ConnectionManager.mk [1, 2] [("a:b:1m:ohlcv_live", [1, 2])])
      "a:b:1m:ohlcv_live" (fun c => c == 2) (by decide) (by decide)).2
     1 (by decide) (by decide)⟩

/-- After subscribing, the registry has an entry for the key and that
entry holds the connection. -/
theorem lookup_subsSubscribe_mem (c : Nat) (k : String)
    (s : List (String × List Nat)) :
    ∃ l, List.lookup k (subsSubscribe c k s) = some l ∧ c ∈ l := by
  induction s with
  | nil => exact ⟨[c], by simp [subsSubscribe, List.lookup], by simp⟩
  | cons p t ih =>
    obtain ⟨k', l⟩ := p
    by_cases hk : k' = k
    · subst hk
      by_cases hc : c ∈ l
      · exact ⟨l, by simp [subsSubscribe, hc, List.lookup], hc⟩
      · exact ⟨l ++ [c], by simp [subsSubscribe, hc, List.lookup], by simp⟩
    · obtain ⟨l', h1, h2⟩ := ih
      refine ⟨l', ?_, h2⟩
      have hb : (k == k') = false := by simp [Ne.symm hk]
      simp [subsSubscribe, hk, List.lookup, hb, h1]

/-- C9: a text frame that is not valid JSON, and a valid JSON message
whose action is neither subscribe nor unsubscribe, are each answered by
an in-band error frame (type error, message, timestamp) on the same
connection; the manager state is unchanged (the connection is not
removed) and the receive loop continues. -/
theorem malformed_message_keeps_connection (m : ConnectionManager)
    (conn : Nat) (raw now : String) (sendOk : Nat → Bool) (msg : WsMessage)
    (h1 : msg.action ≠ some "subscribe")
    (h2 : msg.action ≠ some "unsubscribe") :
    receiveStep m conn (.invalidJson raw) now sendOk =
      ⟨m, [(conn, .error "Invalid JSON format" now, sendOk conn)], true⟩ ∧
    receiveStep m conn (.jsonMsg msg) now sendOk =
      ⟨m, [(conn, .error ("Unknown action: " ++ pyOptStr msg.action) now,
        sendOk conn)], true⟩ := by
  constructor
  · rfl
  · simp [receiveStep, handleWebsocketMessage, h1, h2]

/-- Witness for C9 on an empty manager, one unknown-action message. -/
theorem malformed_message_keeps_connection_witness :
    receiveStep (ConnectionManager.mk [] []) 0
        (.jsonMsg ⟨some "ping", none, none, none, none⟩) "t0"
        (fun _ => true) =
      ⟨ConnectionManager.mk [] [],
       [(0, .error ("Unknown action: " ++ pyOptStr (some "ping")) "t0", true)],
       true⟩ :=
  (malformed_message_keeps_connection (ConnectionManager.mk [] []) 0 "x" "t0"
    (fun _ => true) ⟨some "ping", none, none, none, none⟩ (by decide)
    (by decide)).2

/-- C10: a subscribe message with all four fields present and non-empty
is answered by a subscription confirmation and is immediately followed
by a broadcast of one sample ohlcv_update to the new subscription key;
the newly subscribed connection is among the broadcast recipients, so
it receives an ohlcv_update frame whenever its transport delivers. -/
theorem subscribe_sends_sample_update (m : ConnectionManager) (conn : Nat)
    (ex sym tf ty now : String) (sendOk : Nat → Bool)
    (hex : ex ≠ "") (hsym : sym ≠ "") (htf : tf ≠ "") (hty : ty ≠ "") :
    (receiveStep m conn
        (.jsonMsg ⟨some "subscribe", some ex, some sym, some tf, some ty⟩)
        now sendOk).replies =
      (conn, .subConfirmed ex sym tf ty now, sendOk conn) ::
        ((m.subscribe conn
            (ex ++ ":" ++ sym ++ ":" ++ tf ++ ":" ++ ty)).reverseIndex
            (ex ++ ":" ++ sym ++ ":" ++ tf ++ ":" ++ ty)).map
          (fun c => (c, Frame.ohlcvUpdate ex sym tf now, sendOk c)) ∧
    conn ∈ (m.subscribe conn
        (ex ++ ":" ++ sym ++ ":" ++ tf ++ ":" ++ ty)).reverseIndex
        (ex ++ ":" ++ sym ++ ":" ++ tf ++ ":" ++ ty) ∧
    (sendOk conn = true →
      (conn, Frame.ohlcvUpdate ex sym tf now, true) ∈
        (receiveStep m conn
          (.jsonMsg ⟨some "subscribe", some ex, some sym, some tf, some ty⟩)
          now sendOk).replies) := by
  obtain ⟨l, hl, hcl⟩ :=
    lookup_subsSubscribe_mem conn (ex ++ ":" ++ sym ++ ":" ++ tf ++ ":" ++ ty)
      m.subscriptions
  have hidx : (m.subscribe conn
      (ex ++ ":" ++ sym ++ ":" ++ tf ++ ":" ++ ty)).reverseIndex
      (ex ++ ":" ++ sym ++ ":" ++ tf ++ ":" ++ ty) = l := by
    simp [ConnectionManager.reverseIndex, ConnectionManager.subscribe, hl]
  have hstep : (receiveStep m conn
      (.jsonMsg ⟨some "subscribe", some ex, some sym, some tf, some ty⟩)
      now sendOk).replies =
      (conn, .subConfirmed ex sym tf ty now, sendOk conn) ::
        l.map (fun c => (c, Frame.ohlcvUpdate ex sym tf now, sendOk c)) := by
    simp [receiveStep, handleWebsocketMessage, handleSubscribe, hex, hsym,
      htf, hty, ConnectionManager.broadcast_to_subscription,
      ConnectionManager.subscribe, hl]
  refine ⟨by rw [hstep, hidx], by rw [hidx]; exact hcl, fun hok => ?_⟩
  rw [hstep]
  refine List.mem_cons.mpr (Or.inr ?_)
  refine List.mem_map.mpr ⟨conn, hcl, ?_⟩
  rw [hok]

/-- Witness for C10: fresh manager, concrete subscribe message, a
transport that always delivers. -/
theorem subscribe_sends_sample_update_witness :
    ("binance" : String) ≠ "" ∧
    ((fun _ => true : Nat → Bool) 0 = true →
      (0, Frame.ohlcvUpdate "binance" "BTC/USDT" "1m" "t0", true) ∈
        (receiveStep (ConnectionManager.mk [] []) 0
          (.jsonMsg ⟨some "subscribe", some "binance", some "BTC/USDT",
            some "1m", some "ohlcv_live"⟩) "t0" (fun _ => true)).replies) :=
  ⟨by decide,
   (subscribe_sends_sample_update (ConnectionManager.mk [] []) 0 "binance"
     "BTC/USDT" "1m" "ohlcv_live" "t0" (fun _ => true) (by decide) (by decide)
     (by decide) (by decide)).2.2⟩
